import Mathlib

/-!
Shallow embedding of the offline-storage layer of the wandergo app
(`src/client/lib/offline-storage.ts` and the offline-aware accessor module
that wraps it).

Modelling conventions, fixed once for the whole file:

* `AsyncStorage` is a flat string-keyed key/value store of strings.  We model
  it as an association list `Storage := List (String × StoredStr)`.
* Every string ever written into storage by this code is either
  `JSON.stringify` of some JSON value, `expiry.toString()` of a timestamp, or
  `JSON.stringify` of the queued-action array / a places array.  Since
  `JSON.stringify` is injective on these values and `JSON.parse` inverts it,
  we represent the serialized string by the structured value itself
  (`StoredStr`), one constructor per serialization format.
* `Date.now()` is passed in explicitly as a `now : Nat` argument.
* JS numbers are modelled as `ℚ` where arithmetic matters and `Nat` for
  timestamps/durations.
* Fallible async functions return `Except String α` (the `String` is the
  thrown error message); functions with storage side effects take and return
  a `Storage`.
-/

/-- JSON values, as produced by `JSON.parse`.  Numbers are modelled as `ℚ`. -/
inductive Json where
  | null : Json
  | bool (b : Bool) : Json
  | num (q : ℚ) : Json
  | str (s : String) : Json
  | arr (elems : List Json) : Json
  | obj (fields : List (String × Json)) : Json

/-- The four queued-action kinds of the `QueuedAction.type` union in
`offline-storage.ts`. -/
inductive ActionType where
  | create_review : ActionType
  | mark_visited : ActionType
  | add_favorite : ActionType
  | remove_favorite : ActionType
deriving DecidableEq

/-- `QueuedAction` from `offline-storage.ts`: id, action type, opaque JSON
payload, enqueue timestamp. -/
structure QueuedAction where
  id : String
  type : ActionType
  data : Json
  timestamp : Nat

/-- The `Place` type of the offline accessor module.  `distance` is the extra
field spread onto a place by the nearby-offline fallback (absent, i.e.
`none`, on places as fetched). -/
structure Place where
  id : String
  name : String
  description : Option String := none
  category : String := ""
  city : String := ""
  country : String := ""
  latitude : ℚ := 0
  longitude : ℚ := 0
  imageUrl : Option String := none
  entryFee : Option String := none
  visitDuration : Option String := none
  bestTime : Option String := none
  aiArticle : Option String := none
  avgRating : Option ℚ := none
  reviewCount : Option ℚ := none
  distance : Option ℚ := none

/-- A string held in `AsyncStorage`, represented by the structured value it
serializes.  `natOf n` is `n.toString()` (expiry timestamps); the other
constructors are `JSON.stringify` of the corresponding value. -/
inductive StoredStr where
  | jsonOf (v : Json) : StoredStr
  | natOf (n : Nat) : StoredStr
  | queueOf (q : List QueuedAction) : StoredStr
  | placesOf (ps : List Place) : StoredStr
  | placeOf (p : Place) : StoredStr

/-- The `AsyncStorage` key/value store (an association list; `setItem`
replaces any previous binding of the key). -/
def Storage : Type := List (String × StoredStr)

/-- `AsyncStorage.getItem`: first binding of the key, if any. -/
def Storage.getItem (st : Storage) (k : String) : Option StoredStr :=
  (List.find? (fun kv => kv.1 == k) st).map (fun kv => kv.2)

/-- `AsyncStorage.setItem`: bind `k` to `v`, dropping any previous binding. -/
def Storage.setItem (st : Storage) (k : String) (v : StoredStr) : Storage :=
  (k, v) :: List.filter (fun kv => !(kv.1 == k)) st

/-- `AsyncStorage.multiSet`: `setItem` for each pair in order. -/
def Storage.multiSet (st : Storage) (pairs : List (String × StoredStr)) : Storage :=
  pairs.foldl (fun s p => s.setItem p.1 p.2) st

/-- `AsyncStorage.multiRemove`: drop every binding of the listed keys. -/
def Storage.multiRemove (st : Storage) (ks : List String) : Storage :=
  List.filter (fun kv => !(ks.contains kv.1)) st

/-- Cache value key: `CACHE_PREFIX + key + ":" + identifier` with
`CACHE_PREFIX = "@wandergo_cache:"`. -/
def cacheKeyOf (kind identifier : String) : String :=
  "@wandergo_cache:" ++ kind ++ ":" ++ identifier

/-- Cache expiry key: `CACHE_EXPIRY_PREFIX + key + ":" + identifier` with
`CACHE_EXPIRY_PREFIX = "@wandergo_expiry:"`. -/
def expiryKeyOf (kind identifier : String) : String :=
  "@wandergo_expiry:" ++ kind ++ ":" ++ identifier

/-- `OFFLINE_QUEUE_KEY` constant. -/
def OFFLINE_QUEUE_KEY : String := "@wandergo_offline_queue"

/-- `DEFAULT_CACHE_DURATION` constant: 24 hours in milliseconds. -/
def DEFAULT_CACHE_DURATION : Nat := 24 * 60 * 60 * 1000

/-- `cacheData(key, identifier, data, duration)`: writes the serialized data
under the cache key and `Date.now() + duration` under the expiry key, in one
`multiSet`. -/
def cacheData (now : Nat) (kind identifier : String) (data : StoredStr)
    (duration : Nat) (st : Storage) : Storage :=
  let cacheKey := cacheKeyOf kind identifier
  let expiryKey := expiryKeyOf kind identifier
  let expiry := now + duration
  st.multiSet [(cacheKey, data), (expiryKey, .natOf expiry)]

/-- `getCachedData(key, identifier)`: reads both keys; `null` if either is
missing; if `Date.now() > expiryTime` removes both keys and returns `null`;
otherwise returns the parsed value.  (The wildcard row models `parseInt`
returning `NaN` on a non-numeric expiry string, making `Date.now() > NaN`
false so the data is returned; it is unreachable because expiry keys are only
ever written by `cacheData`.) -/
def getCachedData (now : Nat) (kind identifier : String) (st : Storage) :
    Option StoredStr × Storage :=
  let cacheKey := cacheKeyOf kind identifier
  let expiryKey := expiryKeyOf kind identifier
  match st.getItem cacheKey, st.getItem expiryKey with
  | some data, some (.natOf expiryTime) =>
      if now > expiryTime then
        (none, st.multiRemove [cacheKey, expiryKey])
      else
        (some data, st)
  | some data, some _ => (some data, st)
  | _, _ => (none, st)

theorem getItem_setItem_self (st : Storage) (k : String) (v : StoredStr) :
    (st.setItem k v).getItem k = some v := by
  simp [Storage.setItem, Storage.getItem, List.find?]

theorem getItem_setItem_ne (st : Storage) (k k' : String) (v : StoredStr)
    (h : k' ≠ k) : (st.setItem k v).getItem k' = st.getItem k' := by
  have hbe : (k == k') = false := by
    simp [beq_iff_eq]
    exact fun he => h he.symm
  simp only [Storage.setItem, Storage.getItem, List.find?, hbe]
  induction st with
  | nil => simp
  | cons kv rest ih =>
      by_cases hk : kv.1 = k
      · have : (kv.1 == k) = true := by simp [hk]
        have hk' : (kv.1 == k') = false := by
          simp [beq_iff_eq, hk]
          exact fun he => h he.symm
        simp only [List.filter, this, Bool.not_true, List.find?, hk']
        simpa [List.find?, hk'] using ih
      · have : (kv.1 == k) = false := by simp [beq_iff_eq, hk]
        simp only [List.filter, this, Bool.not_false]
        cases hfind : (kv.1 == k') with
        | true => simp [List.find?, hfind]
        | false => simp only [List.find?, hfind]; exact ih

theorem getItem_multiRemove_mem (st : Storage) (ks : List String) (k : String)
    (h : k ∈ ks) : (st.multiRemove ks).getItem k = none := by
  simp only [Storage.multiRemove, Storage.getItem]
  have hnone : List.find? (fun kv => kv.1 == k)
      (List.filter (fun kv => !(ks.contains kv.1)) st) = none := by
    rw [List.find?_eq_none]
    intro kv hkv hbeq
    have hk1 : kv.1 = k := by simpa using hbeq
    have hmem := (List.mem_filter.mp hkv).2
    rw [hk1] at hmem
    simp [h] at hmem
  rw [hnone]
  rfl

theorem cacheKeyOf_ne_expiryKeyOf (kind identifier : String) :
    cacheKeyOf kind identifier ≠ expiryKeyOf kind identifier := by
  intro h
  have hlen := congrArg String.length h
  have h16 : ("@wandergo_cache:").length = 16 := rfl
  have h17 : ("@wandergo_expiry:").length = 17 := rfl
  simp only [cacheKeyOf, expiryKeyOf, String.length_append, h16, h17] at hlen
  omega

theorem getItem_cacheData_cacheKey (now : Nat) (kind identifier : String)
    (v : StoredStr) (dur : Nat) (st : Storage) :
    (cacheData now kind identifier v dur st).getItem (cacheKeyOf kind identifier)
      = some v := by
  simp only [cacheData, Storage.multiSet, List.foldl]
  rw [getItem_setItem_ne _ _ _ _ (cacheKeyOf_ne_expiryKeyOf kind identifier),
    getItem_setItem_self]

theorem getItem_cacheData_expiryKey (now : Nat) (kind identifier : String)
    (v : StoredStr) (dur : Nat) (st : Storage) :
    (cacheData now kind identifier v dur st).getItem (expiryKeyOf kind identifier)
      = some (.natOf (now + dur)) := by
  simp only [cacheData, Storage.multiSet, List.foldl]
  rw [getItem_setItem_self]

theorem getCachedData_cacheData_fst (now₁ now₂ : Nat) (kind identifier : String)
    (v : StoredStr) (dur : Nat) (st : Storage) :
    (getCachedData now₂ kind identifier (cacheData now₁ kind identifier v dur st)).1
      = if now₂ ≤ now₁ + dur then some v else none := by
  simp only [getCachedData, getItem_cacheData_cacheKey, getItem_cacheData_expiryKey]
  by_cases h : now₁ + dur < now₂
  · simp [h, Nat.not_le.mpr h]
  · simp [h, Nat.le_of_not_lt h]

theorem getCachedData_cacheData_expired_snd (now₁ now₂ : Nat)
    (kind identifier : String) (v : StoredStr) (dur : Nat) (st : Storage)
    (h : now₁ + dur < now₂) :
    (getCachedData now₂ kind identifier (cacheData now₁ kind identifier v dur st)).2
      = (cacheData now₁ kind identifier v dur st).multiRemove
          [cacheKeyOf kind identifier, expiryKeyOf kind identifier] := by
  simp only [getCachedData, getItem_cacheData_cacheKey, getItem_cacheData_expiryKey]
  simp [h]

/-- C1: a cache entry stored via `cacheData(kind, id, value, ttl)` read via
`getCachedData(kind, id)` at a time strictly greater than the stored expiry
instant (`now₁ + ttl`) yields `null`, and as a side effect both the value key
and the expiry key are removed from storage, so a subsequent raw lookup of
either key finds nothing. -/
theorem cache_expired_read_purges (kind identifier : String) (v : StoredStr)
    (dur now₁ now₂ : Nat) (st : Storage) (h : now₁ + dur < now₂) :
    (getCachedData now₂ kind identifier (cacheData now₁ kind identifier v dur st)).1 = none
    ∧ ((getCachedData now₂ kind identifier (cacheData now₁ kind identifier v dur st)).2).getItem
        (cacheKeyOf kind identifier) = none
    ∧ ((getCachedData now₂ kind identifier (cacheData now₁ kind identifier v dur st)).2).getItem
        (expiryKeyOf kind identifier) = none := by
  refine ⟨?_, ?_, ?_⟩
  · rw [getCachedData_cacheData_fst]
    simp [Nat.not_le.mpr h]
  · rw [getCachedData_cacheData_expired_snd _ _ _ _ _ _ _ h]
    exact getItem_multiRemove_mem _ _ _ (by simp)
  · rw [getCachedData_cacheData_expired_snd _ _ _ _ _ _ _ h]
    exact getItem_multiRemove_mem _ _ _ (by simp)

/-- C1 witness: caching at t=0 with ttl 5 and reading at t=6 returns `none`
and leaves neither raw key in storage. -/
theorem cache_expired_read_purges_witness :
    0 + 5 < 6
    ∧ ((getCachedData 6 "place" "42" (cacheData 0 "place" "42" (.jsonOf (.bool true)) 5 ([] : Storage))).1 = none
    ∧ ((getCachedData 6 "place" "42" (cacheData 0 "place" "42" (.jsonOf (.bool true)) 5 ([] : Storage))).2).getItem
        (cacheKeyOf "place" "42") = none
    ∧ ((getCachedData 6 "place" "42" (cacheData 0 "place" "42" (.jsonOf (.bool true)) 5 ([] : Storage))).2).getItem
        (expiryKeyOf "place" "42") = none) :=
  ⟨by decide, cache_expired_read_purges "place" "42" (.jsonOf (.bool true)) 5 0 6 [] (by decide)⟩

/-- C2 counterexample: the claim says a read at exactly the stored expiry
instant returns `null`, but the code checks `Date.now() > expiryTime`
strictly, so reading at exactly the expiry instant returns the cached value. -/
theorem cache_read_at_expiry_cex :
    (getCachedData 5 "places" "all" (cacheData 0 "places" "all" (.jsonOf (.bool true)) 5 ([] : Storage))).1
      = some (.jsonOf (.bool true)) := by
  rw [getCachedData_cacheData_fst]
  simp

/-- C2 (amended): a stored entry is visible to `getCachedData` exactly while
`now ≤ expiry` (the code evicts only when `now > expiry`, strictly); at any
read with `now > expiry` the entry is treated as absent.  A read at exactly
the expiry instant still returns the value. -/
theorem cache_visibility_iff (kind identifier : String) (v : StoredStr)
    (dur now₁ now₂ : Nat) (st : Storage) :
    (getCachedData now₂ kind identifier (cacheData now₁ kind identifier v dur st)).1
      = if now₂ ≤ now₁ + dur then some v else none :=
  getCachedData_cacheData_fst now₁ now₂ kind identifier v dur st

/-- C3: for every storable value, kind, identifier and positive ttl,
`cacheData` followed by `getCachedData` at any time strictly before the
expiry instant returns a value deep-equal to what was stored (equality of the
modelled JSON-serialized payload). -/
theorem cache_roundtrip (kind identifier : String) (v : StoredStr)
    (dur now₁ now₂ : Nat) (st : Storage) (hdur : 0 < dur)
    (h : now₂ < now₁ + dur) :
    (getCachedData now₂ kind identifier (cacheData now₁ kind identifier v dur st)).1
      = some v := by
  rw [getCachedData_cacheData_fst]
  simp [Nat.le_of_lt h]

/-- C3 witness: caching at t=0 with ttl 10 and reading back at t=3 yields the
stored payload. -/
theorem cache_roundtrip_witness :
    0 < 10 ∧ 3 < 0 + 10
    ∧ (getCachedData 3 "favorites" "user"
        (cacheData 0 "favorites" "user" (.jsonOf (.arr [.str "a", .num 2])) 10 ([] : Storage))).1
      = some (.jsonOf (.arr [.str "a", .num 2])) :=
  ⟨by decide, by decide,
    cache_roundtrip "favorites" "user" (.jsonOf (.arr [.str "a", .num 2])) 10 0 3 []
      (by decide) (by decide)⟩

/-- `getOfflineQueue()`: parses the persisted queue; missing key or parse
failure yields the empty list. -/
def getOfflineQueue (st : Storage) : List QueuedAction :=
  match st.getItem OFFLINE_QUEUE_KEY with
  | some (.queueOf q) => q
  | _ => []

/-- `addToOfflineQueue(action)`: appends a new action with
`id = Date.now() + "_" + randomSuffix` and `timestamp = Date.now()`, persists
the whole list, and notifies queue listeners with the new length (the `Nat`
component, re-read from storage by `notifyQueueChange`). -/
def addToOfflineQueue (now : Nat) (rand : String) (type : ActionType)
    (data : Json) (st : Storage) : Storage × Nat :=
  let queue := getOfflineQueue st
  let newQueue := queue ++
    [{ id := toString now ++ "_" ++ rand, type := type, data := data, timestamp := now }]
  let st' := st.setItem OFFLINE_QUEUE_KEY (.queueOf newQueue)
  (st', (getOfflineQueue st').length)

/-- `removeFromOfflineQueue(actionId)`: filters out every action with the
given id, persists, and notifies queue listeners with the re-read length. -/
def removeFromOfflineQueue (actionId : String) (st : Storage) : Storage × Nat :=
  let queue := getOfflineQueue st
  let updatedQueue := queue.filter (fun a => !(a.id == actionId))
  let st' := st.setItem OFFLINE_QUEUE_KEY (.queueOf updatedQueue)
  (st', (getOfflineQueue st').length)

/-- Outcome of one replayed `authFetch` call: response with `ok` true,
response with `ok` false, or a thrown error. -/
inductive ReplayResult where
  | ok : ReplayResult
  | notOk : ReplayResult
  | err : ReplayResult
deriving DecidableEq

/-- Extraction of `action.data.placeId` as interpolated into the request URL
(the enqueuers always store a string there; other shapes are unreachable). -/
def placeIdOf (data : Json) : String :=
  match data with
  | .obj fields =>
      match fields.find? (fun f => f.1 == "placeId") with
      | some (_, .str s) => s
      | _ => "undefined"
  | _ => "undefined"

/-- URL and method of the network call replaying a queued action, per the
`switch (action.type)` in `processOfflineQueue` (the `create_review` body is
carried by the oracle, not modelled separately). -/
def requestOf (a : QueuedAction) : String × String :=
  match a.type with
  | .mark_visited => ("/api/visited/" ++ placeIdOf a.data, "POST")
  | .add_favorite => ("/api/favorites/" ++ placeIdOf a.data, "POST")
  | .remove_favorite => ("/api/favorites/" ++ placeIdOf a.data, "DELETE")
  | .create_review => ("/api/places/" ++ placeIdOf a.data ++ "/reviews", "POST")

/-- Result of a queue drain: final storage, the queue lengths delivered to
each queue listener (one entry per successful removal, chronological), and
the replay network requests issued, in order. -/
structure ProcessResult where
  storage : Storage
  notifs : List Nat
  requests : List (String × String)

/-- The `for (const action of queue)` loop body of `processOfflineQueue`:
replay each action; on a response with `ok` true remove it from the persisted
queue (which notifies queue listeners); on a failed response or a thrown
error leave it in place. -/
def processActions (net : String → String → ReplayResult) :
    List QueuedAction → Storage → ProcessResult
  | [], st => ⟨st, [], []⟩
  | a :: rest, st =>
    let req := requestOf a
    match net req.1 req.2 with
    | .ok =>
        let r := removeFromOfflineQueue a.id st
        let t := processActions net rest r.1
        ⟨t.storage, r.2 :: t.notifs, req :: t.requests⟩
    | .notOk =>
        let t := processActions net rest st
        ⟨t.storage, t.notifs, req :: t.requests⟩
    | .err =>
        let t := processActions net rest st
        ⟨t.storage, t.notifs, req :: t.requests⟩

/-- `processOfflineQueue()`: a no-op on an empty queue, else the replay loop
over a snapshot of the persisted queue. -/
def processOfflineQueue (net : String → String → ReplayResult) (st : Storage) :
    ProcessResult :=
  let queue := getOfflineQueue st
  if queue.length = 0 then ⟨st, [], []⟩
  else processActions net queue st

/-- Success predicate of the oracle on one action's replay request. -/
def okReq (net : String → String → ReplayResult) (a : QueuedAction) : Bool :=
  decide (net (requestOf a).1 (requestOf a).2 = .ok)

theorem getOfflineQueue_setQueue (st : Storage) (q : List QueuedAction) :
    getOfflineQueue (st.setItem OFFLINE_QUEUE_KEY (.queueOf q)) = q := by
  simp [getOfflineQueue, getItem_setItem_self]

theorem getOfflineQueue_removeFromOfflineQueue (actionId : String) (st : Storage) :
    getOfflineQueue (removeFromOfflineQueue actionId st).1
      = (getOfflineQueue st).filter (fun a => !(a.id == actionId)) := by
  simp [removeFromOfflineQueue, getOfflineQueue_setQueue]

theorem removeFromOfflineQueue_snd (actionId : String) (st : Storage) :
    (removeFromOfflineQueue actionId st).2
      = (getOfflineQueue (removeFromOfflineQueue actionId st).1).length := rfl

theorem processActions_requests (net : String → String → ReplayResult)
    (acts : List QueuedAction) (st : Storage) :
    (processActions net acts st).requests = acts.map requestOf := by
  induction acts generalizing st with
  | nil => rfl
  | cons a rest ih =>
      simp only [processActions]
      cases net (requestOf a).1 (requestOf a).2 <;> simp [ih]

theorem processActions_notifs_length (net : String → String → ReplayResult)
    (acts : List QueuedAction) (st : Storage)
    (hok : ∀ a ∈ acts, okReq net a = true) :
    (processActions net acts st).notifs.length = acts.length := by
  induction acts generalizing st with
  | nil => rfl
  | cons a rest ih =>
      have ha : net (requestOf a).1 (requestOf a).2 = .ok := by
        have := hok a (by simp)
        simpa [okReq] using this
      simp only [processActions, ha]
      simp [ih _ (fun x hx => hok x (by simp [hx]))]

theorem getOfflineQueue_processActions (net : String → String → ReplayResult)
    (acts : List QueuedAction) (st : Storage) :
    getOfflineQueue (processActions net acts st).storage
      = (getOfflineQueue st).filter
          (fun x => decide (¬ x.id ∈ (acts.filter (okReq net)).map (fun a => a.id))) := by
  induction acts generalizing st with
  | nil => simp [processActions]
  | cons a rest ih =>
      simp only [processActions]
      cases hnet : net (requestOf a).1 (requestOf a).2 with
      | ok =>
          have hok : okReq net a = true := by simp [okReq, hnet]
          simp only []
          rw [ih, getOfflineQueue_removeFromOfflineQueue, List.filter_filter]
          refine List.filter_congr (fun x hx => ?_)
          simp only [List.filter_cons, hok, if_pos, List.map_cons, List.mem_cons]
          by_cases hxa : x.id = a.id
          · simp [hxa]
          · by_cases hxr : x.id ∈ (rest.filter (okReq net)).map (fun a => a.id)
            · simp [hxa, hxr]
            · simp [hxa, hxr]
      | notOk =>
          have hok : okReq net a = false := by simp [okReq, hnet]
          simp only []
          rw [ih]
          congr 1
          funext x
          simp [List.filter_cons, hok]
      | err =>
          have hok : okReq net a = false := by simp [okReq, hnet]
          simp only []
          rw [ih]
          congr 1
          funext x
          simp [List.filter_cons, hok]

theorem processActions_notifs_getLast (net : String → String → ReplayResult)
    (acts : List QueuedAction) (st : Storage) (hne : acts ≠ [])
    (hok : ∀ a ∈ acts, okReq net a = true) :
    (processActions net acts st).notifs.getLast?
      = some (getOfflineQueue (processActions net acts st).storage).length := by
  induction acts generalizing st with
  | nil => exact absurd rfl hne
  | cons a rest ih =>
      have ha : net (requestOf a).1 (requestOf a).2 = .ok := by
        have := hok a (by simp)
        simpa [okReq] using this
      simp only [processActions, ha]
      by_cases hrest : rest = []
      · subst hrest
        simp [processActions, removeFromOfflineQueue_snd]
      · have htail := ih (removeFromOfflineQueue a.id st).1 hrest
          (fun x hx => hok x (by simp [hx]))
        have hlen := processActions_notifs_length net rest
          (removeFromOfflineQueue a.id st).1 (fun x hx => hok x (by simp [hx]))
        have hnn : (processActions net rest (removeFromOfflineQueue a.id st).1).notifs ≠ [] := by
          intro hempty
          rw [hempty] at hlen
          simp at hlen
          exact hrest (List.length_eq_zero.mp hlen.symm)
        obtain ⟨y, ys, hys⟩ := List.exists_cons_of_ne_nil hnn
        simp only [hys, List.getLast?_cons_cons]
        rw [← hys, htail]

/-- C4: if the persisted queue is non-empty and every replay call succeeds,
`processOfflineQueue` empties the persisted queue, each queue-length listener
is last notified with count 0, and the replay requests are issued
sequentially in queue (FIFO) order. -/
theorem drain_success_empties_queue (net : String → String → ReplayResult)
    (st : Storage) (hne : getOfflineQueue st ≠ [])
    (hok : ∀ a ∈ getOfflineQueue st, okReq net a = true) :
    getOfflineQueue (processOfflineQueue net st).storage = []
    ∧ (processOfflineQueue net st).notifs.getLast? = some 0
    ∧ (processOfflineQueue net st).requests = (getOfflineQueue st).map requestOf := by
  have hlen : ¬ (getOfflineQueue st).length = 0 := by
    intro h
    exact hne (List.length_eq_zero.mp h)
  have hempty : getOfflineQueue (processActions net (getOfflineQueue st) st).storage = [] := by
    rw [getOfflineQueue_processActions]
    rw [List.filter_eq_nil_iff]
    intro x hx
    have hxid : x.id ∈ ((getOfflineQueue st).filter (okReq net)).map (fun a => a.id) := by
      refine List.mem_map.mpr ⟨x, ?_, rfl⟩
      exact List.mem_filter.mpr ⟨hx, hok x hx⟩
    simp [hxid]
  refine ⟨?_, ?_, ?_⟩
  · simpa [processOfflineQueue, hlen] using hempty
  · have := processActions_notifs_getLast net (getOfflineQueue st) st hne hok
    rw [hempty] at this
    simpa [processOfflineQueue, hlen] using this
  · simpa [processOfflineQueue, hlen] using
      processActions_requests net (getOfflineQueue st) st

/-- Concrete queued actions used by the drain witnesses. -/
def sampleAction (n : Nat) (pid : String) (ty : ActionType) : QueuedAction :=
  { id := toString n ++ "_r", type := ty,
    data := .obj [("placeId", .str pid)], timestamp := n }

/-- Concrete three-action queue used by the drain witnesses. -/
def queueW : List QueuedAction :=
  [sampleAction 1 "p1" .mark_visited, sampleAction 2 "p2" .add_favorite,
   sampleAction 3 "p3" .create_review]

/-- Concrete storage holding `queueW` as the persisted offline queue. -/
def stW : Storage := [(OFFLINE_QUEUE_KEY, .queueOf queueW)]

/-- C4 witness: draining a concrete three-action queue with an
always-succeeding network empties it, last-notifies 0, and issues the three
requests in order. -/
theorem drain_success_empties_queue_witness :
    getOfflineQueue stW ≠ []
    ∧ (∀ a ∈ getOfflineQueue stW, okReq (fun _ _ => .ok) a = true)
    ∧ (getOfflineQueue (processOfflineQueue (fun _ _ => .ok) stW).storage = []
    ∧ (processOfflineQueue (fun _ _ => .ok) stW).notifs.getLast? = some 0
    ∧ (processOfflineQueue (fun _ _ => .ok) stW).requests
        = (getOfflineQueue stW).map requestOf) := by
  have h1 : getOfflineQueue stW = queueW := rfl
  refine ⟨by rw [h1]; simp [queueW], fun a _ => rfl, ?_⟩
  exact drain_success_empties_queue (fun _ _ => .ok) stW
    (by rw [h1]; simp [queueW]) (fun a _ => rfl)

theorem nodup_map_inj {l : List QueuedAction}
    (hnodup : (l.map (fun a => a.id)).Nodup) {a b : QueuedAction}
    (ha : a ∈ l) (hb : b ∈ l) (hid : a.id = b.id) : a = b :=
  List.inj_on_of_nodup_map hnodup ha hb hid

theorem filter_id_eq_singleton {l : List QueuedAction} {b : QueuedAction}
    (hnodup : (l.map (fun a => a.id)).Nodup) (hb : b ∈ l) :
    l.filter (fun x => decide (x.id = b.id)) = [b] := by
  induction l with
  | nil => cases hb
  | cons x rest ih =>
      rw [List.map_cons, List.nodup_cons] at hnodup
      rcases List.mem_cons.mp hb with hbx | hbr
      · subst hbx
        have hrest : rest.filter (fun y => decide (y.id = b.id)) = [] := by
          rw [List.filter_eq_nil_iff]
          intro y hy hdy
          have : y.id = b.id := by simpa using hdy
          exact hnodup.1 (this ▸ List.mem_map.mpr ⟨y, hy, rfl⟩)
        simp [List.filter_cons, hrest]
      · have hxb : ¬ x.id = b.id := by
          intro hxid
          exact hnodup.1 (hxid ▸ List.mem_map.mpr ⟨b, hbr, rfl⟩)
        simp only [List.filter_cons, decide_eq_true_eq, hxb, if_false]
        exact ih hnodup.2 hbr

/-- C5: if the persisted queue contains an action `b` whose replay request
fails (non-ok response or thrown error) while every other action's replay
succeeds, then after `processOfflineQueue` exactly `b` remains in the
persisted queue, unchanged (ids are pairwise distinct, as generated by
`addToOfflineQueue`).  Nothing marks it for removal, so it is retried on the
next drain. -/
theorem drain_failed_action_stays (net : String → String → ReplayResult)
    (st : Storage) (b : QueuedAction)
    (hmem : b ∈ getOfflineQueue st)
    (hfail : okReq net b = false)
    (hothers : ∀ a ∈ getOfflineQueue st, a.id ≠ b.id → okReq net a = true)
    (hnodup : ((getOfflineQueue st).map (fun a => a.id)).Nodup) :
    getOfflineQueue (processOfflineQueue net st).storage = [b] := by
  have hne : getOfflineQueue st ≠ [] := by
    intro h
    rw [h] at hmem
    cases hmem
  have hlen : ¬ (getOfflineQueue st).length = 0 := by
    intro h
    exact hne (List.length_eq_zero.mp h)
  have hpt : ∀ x ∈ getOfflineQueue st,
      decide (¬ x.id ∈ ((getOfflineQueue st).filter (okReq net)).map (fun a => a.id))
        = decide (x.id = b.id) := by
    intro x hx
    by_cases hxb : x.id = b.id
    · have hnotin : ¬ b.id ∈ ((getOfflineQueue st).filter (okReq net)).map
          (fun a => a.id) := by
        intro hin
        obtain ⟨a, haf, haid⟩ := List.mem_map.mp hin
        have haq := List.mem_filter.mp haf
        have hab : a = b := nodup_map_inj hnodup haq.1 hmem haid
        rw [hab, hfail] at haq
        exact Bool.false_ne_true haq.2
      rw [hxb]
      simp [hnotin]
    · have hxok : okReq net x = true := hothers x hx hxb
      have hxin : x.id ∈ ((getOfflineQueue st).filter (okReq net)).map
          (fun a => a.id) :=
        List.mem_map.mpr ⟨x, List.mem_filter.mpr ⟨hx, hxok⟩, rfl⟩
      simp [hxb, hxin]
  have : getOfflineQueue (processActions net (getOfflineQueue st) st).storage = [b] := by
    rw [getOfflineQueue_processActions, List.filter_congr hpt]
    exact filter_id_eq_singleton hnodup hmem
  simpa [processOfflineQueue, hlen] using this

/-- Oracle for the C5 witness: the add-favorite replay for place `p2` fails,
everything else succeeds. -/
def netFailP2 : String → String → ReplayResult :=
  fun url _ => if url = "/api/favorites/p2" then .notOk else .ok

/-- C5 witness: draining the concrete three-action queue with only the middle
action's replay failing leaves exactly that action queued. -/
theorem drain_failed_action_stays_witness :
    sampleAction 2 "p2" .add_favorite ∈ getOfflineQueue stW
    ∧ okReq netFailP2 (sampleAction 2 "p2" .add_favorite) = false
    ∧ getOfflineQueue (processOfflineQueue netFailP2 stW).storage
        = [sampleAction 2 "p2" .add_favorite] := by
  have h1 : getOfflineQueue stW = queueW := rfl
  have hmem : sampleAction 2 "p2" .add_favorite ∈ getOfflineQueue stW := by
    rw [h1]
    simp [queueW]
  refine ⟨hmem, rfl, ?_⟩
  refine drain_failed_action_stays netFailP2 stW (sampleAction 2 "p2" .add_favorite)
    hmem rfl ?_ ?_
  · intro a ha hne
    rw [h1] at ha
    simp only [queueW, List.mem_cons, List.mem_singleton] at ha
    rcases ha with h | h | h
    · subst h; rfl
    · subst h; exact absurd rfl hne
    · rcases h with h | h
      · subst h; rfl
      · cases h
  · rw [h1]
    simp only [queueW, List.map_cons, List.map_nil]
    decide

/-- Result of `Network.getNetworkStateAsync()`: tri-state fields as exposed by
the platform API (`undefined` modelled as `none`). -/
structure NetworkObservation where
  isConnected : Option Bool
  isInternetReachable : Option Bool

/-- The freshly observed online value:
`state.isConnected === true && state.isInternetReachable !== false`. -/
def observedOnline (o : NetworkObservation) : Bool :=
  (o.isConnected == some true) && !(o.isInternetReachable == some false)

/-- Result of one `pollNetworkStatus` tick: the shared `isOnline` boolean
after the tick, the value delivered to every network listener (empty when no
notification fired), and whether `processOfflineQueue` was triggered. -/
structure PollOutcome where
  isOnline : Bool
  notifs : List Bool
  drained : Bool

/-- `pollNetworkStatus()`: on a successful platform query, update the shared
boolean only when the observed value differs, notifying every listener with
the new value and triggering the queue drain when the new value is online; a
thrown platform error (`none`) keeps the existing state. -/
def pollNetworkStatus (result : Option NetworkObservation) (isOnline : Bool) :
    PollOutcome :=
  match result with
  | none => ⟨isOnline, [], false⟩
  | some state =>
      let newOnlineState := observedOnline state
      if isOnline ≠ newOnlineState then
        ⟨newOnlineState, [newOnlineState], newOnlineState⟩
      else
        ⟨isOnline, [], false⟩

/-- A run of successive successful poll ticks (one `setInterval` firing per
list element), collecting every listener notification in order. -/
def pollTicks : List NetworkObservation → Bool → Bool × List Bool
  | [], isOnline => (isOnline, [])
  | o :: rest, isOnline =>
      let out := pollNetworkStatus (some o) isOnline
      let t := pollTicks rest out.isOnline
      (t.1, out.notifs ++ t.2)

/-- Number of value changes along a boolean trace starting from `s`. -/
def chainChanges (s : Bool) : List Bool → Nat
  | [] => 0
  | b :: rest => (if b = s then 0 else 1) + chainChanges b rest

theorem pollTicks_notifs_length (obss : List NetworkObservation) (s : Bool) :
    (pollTicks obss s).2.length = chainChanges s (obss.map observedOnline) := by
  induction obss generalizing s with
  | nil => rfl
  | cons o rest ih =>
      simp only [pollTicks, List.map_cons, chainChanges]
      by_cases h : s = observedOnline o
      · have hcond : ¬ (s ≠ observedOnline o) := by simp [h]
        simp only [pollNetworkStatus, if_neg hcond, List.nil_append, ih]
        rw [← h]
        simp
      · simp only [pollNetworkStatus, ne_eq, if_pos h]
        have hos : ¬ observedOnline o = s := fun he => h he.symm
        simp only [List.cons_append, List.nil_append, List.length_cons, ih,
          if_neg hos]
        omega

/-- C6: network listeners fire only on transitions.  A poll tick notifies
every listener with the fresh value exactly when it differs from the stored
shared boolean, and triggers queue replay exactly on the offline-to-online
transition; a platform error keeps state and notifies nobody.  Over any run
of poll ticks the number of notifications equals the number of value changes
along the observed trace (so online → offline → online yields exactly one
notification per transition and none for unchanged ticks). -/
theorem listeners_fire_only_on_transitions (state : NetworkObservation)
    (s : Bool) (obss : List NetworkObservation) :
    (pollNetworkStatus (some state) s).notifs
      = (if observedOnline state = s then [] else [observedOnline state])
    ∧ (pollNetworkStatus (some state) s).drained
      = (decide (observedOnline state ≠ s) && observedOnline state)
    ∧ pollNetworkStatus none s = ⟨s, [], false⟩
    ∧ (pollTicks obss s).2.length = chainChanges s (obss.map observedOnline)
    ∧ (pollTicks [⟨some true, some false⟩, ⟨some true, none⟩] true).2
        = [false, true] := by
  refine ⟨?_, ?_, rfl, pollTicks_notifs_length obss s, rfl⟩
  · rw [pollNetworkStatus]
    by_cases h : observedOnline state = s
    · simp [h]
    · have : s ≠ observedOnline state := fun he => h he.symm
      simp [h, this]
  · rw [pollNetworkStatus]
    by_cases h : observedOnline state = s
    · simp [h]
    · have : s ≠ observedOnline state := fun he => h he.symm
      simp [h, this]

/-- State of the module-level polling machinery: the network listener array
and whether the shared `setInterval` timer is running
(`pollingInterval !== null`). -/
structure PollSystem where
  networkListeners : List Nat
  pollingActive : Bool

/-- `startNetworkPolling()`: a no-op when the timer is running, else starts
it (the immediate `pollNetworkStatus()` call does not affect this state). -/
def startNetworkPolling (s : PollSystem) : PollSystem :=
  if s.pollingActive then s else { s with pollingActive := true }

/-- `stopNetworkPolling()`: clears the timer if running. -/
def stopNetworkPolling (s : PollSystem) : PollSystem :=
  if s.pollingActive then { s with pollingActive := false } else s

/-- The module-load state: empty listener array, then the top-level
`startNetworkPolling()` call at line 64 of `offline-storage.ts` (run when the
module is first loaded, before any subscriber exists). -/
def moduleInit : PollSystem :=
  startNetworkPolling { networkListeners := [], pollingActive := false }

/-- `subscribeToNetworkStatus(listener)`: pushes the listener (identified by
a token); it does not start or restart the poll timer. -/
def subscribeToNetworkStatus (listener : Nat) (s : PollSystem) : PollSystem :=
  { s with networkListeners := s.networkListeners ++ [listener] }

/-- The unsubscribe closure returned by `subscribeToNetworkStatus`: removes
the listener by identity and stops the timer when the array becomes empty. -/
def unsubscribeNetworkStatus (listener : Nat) (s : PollSystem) : PollSystem :=
  let s' := { s with
    networkListeners := s.networkListeners.filter (fun l => !(l == listener)) }
  if s'.networkListeners.length = 0 then stopNetworkPolling s' else s'

theorem stopNetworkPolling_pollingActive (s : PollSystem) :
    (stopNetworkPolling s).pollingActive = false := by
  unfold stopNetworkPolling
  by_cases hp : s.pollingActive
  · rw [if_pos hp]
  · rw [if_neg hp]
    simpa using hp

theorem stopNetworkPolling_listeners (s : PollSystem) :
    (stopNetworkPolling s).networkListeners = s.networkListeners := by
  unfold stopNetworkPolling
  by_cases hp : s.pollingActive
  · rw [if_pos hp]
  · rw [if_neg hp]

/-- C7 counterexample: the claim says the poll timer is started lazily on the
first `subscribeToNetworkStatus` call, so that the timer is active iff the
listener array is non-empty and no polling occurs before the first
subscription; but at module load the timer is already active while the
listener array is empty. -/
theorem poll_timer_active_before_first_subscriber :
    moduleInit.pollingActive = true ∧ moduleInit.networkListeners = [] := by
  constructor <;> rfl

/-- C7 (amended): the poll timer is started eagerly at module load, before
any subscriber; subscribing never starts or restarts it; it is stopped
exactly when an unsubscribe leaves the listener array empty, and an
unsubscribe that leaves listeners behind keeps it untouched. -/
theorem poll_timer_lifecycle (s : PollSystem) (listener : Nat) :
    moduleInit.pollingActive = true
    ∧ moduleInit.networkListeners = []
    ∧ (subscribeToNetworkStatus listener s).pollingActive = s.pollingActive
    ∧ (subscribeToNetworkStatus listener s).networkListeners
        = s.networkListeners ++ [listener]
    ∧ ((unsubscribeNetworkStatus listener s).networkListeners = []
        → (unsubscribeNetworkStatus listener s).pollingActive = false)
    ∧ ((unsubscribeNetworkStatus listener s).networkListeners ≠ []
        → (unsubscribeNetworkStatus listener s).pollingActive = s.pollingActive) := by
  refine ⟨rfl, rfl, rfl, rfl, ?_, ?_⟩
  · intro h
    unfold unsubscribeNetworkStatus at h ⊢
    by_cases hl : (s.networkListeners.filter (fun l => !(l == listener))).length = 0
    · rw [if_pos hl]
      exact stopNetworkPolling_pollingActive _
    · rw [if_neg hl] at h
      exact absurd (congrArg List.length h) (by simpa using hl)
  · intro h
    unfold unsubscribeNetworkStatus at h ⊢
    by_cases hl : (s.networkListeners.filter (fun l => !(l == listener))).length = 0
    · rw [if_pos hl] at h
      rw [stopNetworkPolling_listeners] at h
      exact absurd (List.length_eq_zero.mp hl) h
    · rw [if_neg hl]

/-- C7 witness: after module load, subscribing then unsubscribing the sole
listener leaves the listener array empty and therefore a stopped timer. -/
theorem poll_timer_lifecycle_witness :
    (unsubscribeNetworkStatus 0 (subscribeToNetworkStatus 0 moduleInit)).networkListeners = []
    ∧ (unsubscribeNetworkStatus 0 (subscribeToNetworkStatus 0 moduleInit)).pollingActive = false := by
  have h := poll_timer_lifecycle (subscribeToNetworkStatus 0 moduleInit) 0
  have hempty : (unsubscribeNetworkStatus 0 (subscribeToNetworkStatus 0 moduleInit)).networkListeners = [] := rfl
  exact ⟨hempty, h.2.2.2.2.1 hempty⟩

theorem getOfflineQueue_addToOfflineQueue (now : Nat) (rand : String)
    (ty : ActionType) (data : Json) (st : Storage) :
    getOfflineQueue (addToOfflineQueue now rand ty data st).1
      = getOfflineQueue st ++
        [{ id := toString now ++ "_" ++ rand, type := ty, data := data,
           timestamp := now }] := by
  simp [addToOfflineQueue, getOfflineQueue_setQueue]

theorem getItem_addToOfflineQueue_ne (now : Nat) (rand : String)
    (ty : ActionType) (data : Json) (st : Storage) (k : String)
    (h : k ≠ OFFLINE_QUEUE_KEY) :
    (addToOfflineQueue now rand ty data st).1.getItem k = st.getItem k := by
  simp only [addToOfflineQueue]
  exact getItem_setItem_ne _ _ _ _ h

/-- The optimistic acknowledgement object
`{ queued: true, message: "Action will be synced when online" }`. -/
def queuedAck : Json :=
  .obj [("queued", .bool true), ("message", .str "Action will be synced when online")]

/-- `markVisitedWithOffline(placeId)`: online → the direct `api.markVisited`
call (its response is the oracle `apiResp`); offline → enqueue a
`mark_visited` action and return the queued acknowledgement. -/
def markVisitedWithOffline (now : Nat) (rand : String) (isOnline : Bool)
    (apiResp : Json) (placeId : String) (st : Storage) : Json × Storage :=
  if isOnline then (apiResp, st)
  else
    let r := addToOfflineQueue now rand .mark_visited
      (.obj [("placeId", .str placeId)]) st
    (queuedAck, r.1)

/-- `addFavoriteWithOffline(placeId)`: as `markVisitedWithOffline` with an
`add_favorite` action. -/
def addFavoriteWithOffline (now : Nat) (rand : String) (isOnline : Bool)
    (apiResp : Json) (placeId : String) (st : Storage) : Json × Storage :=
  if isOnline then (apiResp, st)
  else
    let r := addToOfflineQueue now rand .add_favorite
      (.obj [("placeId", .str placeId)]) st
    (queuedAck, r.1)

/-- `removeFavoriteWithOffline(placeId)`: as `markVisitedWithOffline` with a
`remove_favorite` action. -/
def removeFavoriteWithOffline (now : Nat) (rand : String) (isOnline : Bool)
    (apiResp : Json) (placeId : String) (st : Storage) : Json × Storage :=
  if isOnline then (apiResp, st)
  else
    let r := addToOfflineQueue now rand .remove_favorite
      (.obj [("placeId", .str placeId)]) st
    (queuedAck, r.1)

/-- C9: each offline mutating call appends exactly one matching action to the
persisted queue, returns the `{queued: true}` acknowledgement, and leaves
every storage key other than the queue key — in particular every cache entry,
including the cached favorites and visited lists — unchanged. -/
theorem offline_mutations_enqueue_only (now : Nat) (rand : String)
    (placeId : String) (st : Storage) (apiResp : Json) :
    ((markVisitedWithOffline now rand false apiResp placeId st).1 = queuedAck
      ∧ getOfflineQueue (markVisitedWithOffline now rand false apiResp placeId st).2
          = getOfflineQueue st ++
            [{ id := toString now ++ "_" ++ rand, type := .mark_visited,
               data := .obj [("placeId", .str placeId)], timestamp := now }]
      ∧ ∀ k, k ≠ OFFLINE_QUEUE_KEY →
          (markVisitedWithOffline now rand false apiResp placeId st).2.getItem k
            = st.getItem k)
    ∧ ((addFavoriteWithOffline now rand false apiResp placeId st).1 = queuedAck
      ∧ getOfflineQueue (addFavoriteWithOffline now rand false apiResp placeId st).2
          = getOfflineQueue st ++
            [{ id := toString now ++ "_" ++ rand, type := .add_favorite,
               data := .obj [("placeId", .str placeId)], timestamp := now }]
      ∧ ∀ k, k ≠ OFFLINE_QUEUE_KEY →
          (addFavoriteWithOffline now rand false apiResp placeId st).2.getItem k
            = st.getItem k)
    ∧ ((removeFavoriteWithOffline now rand false apiResp placeId st).1 = queuedAck
      ∧ getOfflineQueue (removeFavoriteWithOffline now rand false apiResp placeId st).2
          = getOfflineQueue st ++
            [{ id := toString now ++ "_" ++ rand, type := .remove_favorite,
               data := .obj [("placeId", .str placeId)], timestamp := now }]
      ∧ ∀ k, k ≠ OFFLINE_QUEUE_KEY →
          (removeFavoriteWithOffline now rand false apiResp placeId st).2.getItem k
            = st.getItem k) := by
  refine ⟨⟨rfl, ?_, ?_⟩, ⟨rfl, ?_, ?_⟩, ⟨rfl, ?_, ?_⟩⟩
  · exact getOfflineQueue_addToOfflineQueue now rand .mark_visited _ st
  · exact fun k hk => getItem_addToOfflineQueue_ne now rand .mark_visited _ st k hk
  · exact getOfflineQueue_addToOfflineQueue now rand .add_favorite _ st
  · exact fun k hk => getItem_addToOfflineQueue_ne now rand .add_favorite _ st k hk
  · exact getOfflineQueue_addToOfflineQueue now rand .remove_favorite _ st
  · exact fun k hk => getItem_addToOfflineQueue_ne now rand .remove_favorite _ st k hk

/-- Concrete storage for the C9 witness: a cached favorites list and an empty
queue key space. -/
def stC9 : Storage :=
  cacheData 0 "favorites" "user" (.jsonOf (.arr [.str "f1"])) 1000 []

/-- C9 witness: at a concrete offline `markVisitedWithOffline` call, the ack
is returned, the queue grows by exactly the matching action, and the cached
favorites entry (a key different from the queue key) is untouched. -/
theorem offline_mutations_enqueue_only_witness :
    (markVisitedWithOffline 7 "r" false .null "p9" stC9).1 = queuedAck
    ∧ getOfflineQueue (markVisitedWithOffline 7 "r" false .null "p9" stC9).2
        = getOfflineQueue stC9 ++
          [{ id := toString 7 ++ "_" ++ "r", type := .mark_visited,
             data := .obj [("placeId", .str "p9")], timestamp := 7 }]
    ∧ cacheKeyOf "favorites" "user" ≠ OFFLINE_QUEUE_KEY
    ∧ (markVisitedWithOffline 7 "r" false .null "p9" stC9).2.getItem
        (cacheKeyOf "favorites" "user")
      = stC9.getItem (cacheKeyOf "favorites" "user") := by
  have h := offline_mutations_enqueue_only 7 "r" "p9" stC9 .null
  have hk : cacheKeyOf "favorites" "user" ≠ OFFLINE_QUEUE_KEY := by decide
  exact ⟨h.1.1, h.1.2.1, hk, h.1.2.2 _ hk⟩

theorem keyChar_cacheKeyOf (kind identifier : String) :
    (cacheKeyOf kind identifier).data[10]? = some 'c' := by
  have h : cacheKeyOf kind identifier
      = "@wandergo_cache:" ++ (kind ++ (":" ++ identifier)) := by
    simp only [cacheKeyOf, String.append_assoc]
  rw [h, String.data_append, List.getElem?_append,
    if_pos (by decide : (10:Nat) < "@wandergo_cache:".data.length)]
  decide

theorem keyChar_expiryKeyOf (kind identifier : String) :
    (expiryKeyOf kind identifier).data[10]? = some 'e' := by
  have h : expiryKeyOf kind identifier
      = "@wandergo_expiry:" ++ (kind ++ (":" ++ identifier)) := by
    simp only [expiryKeyOf, String.append_assoc]
  rw [h, String.data_append, List.getElem?_append,
    if_pos (by decide : (10:Nat) < "@wandergo_expiry:".data.length)]
  decide

theorem cacheKeyOf_ne_expiryKeyOf_any (k1 i1 k2 i2 : String) :
    cacheKeyOf k1 i1 ≠ expiryKeyOf k2 i2 := by
  intro h
  have hc := congrArg (fun s => s.data[10]?) h
  dsimp only at hc
  rw [keyChar_cacheKeyOf, keyChar_expiryKeyOf] at hc
  exact absurd (Option.some.inj hc) (by decide)

theorem cacheKeyOf_places_all_ne_place (identifier : String) :
    cacheKeyOf "places" "all" ≠ cacheKeyOf "place" identifier := by
  intro h
  have hc := congrArg (fun s => s.data[21]?) h
  dsimp only at hc
  have hL : (cacheKeyOf "places" "all").data[21]? = some 's' := by decide
  have hid : cacheKeyOf "place" identifier = "@wandergo_cache:place:" ++ identifier := rfl
  rw [hL, hid, String.data_append, List.getElem?_append,
    if_pos (by decide : (21:Nat) < "@wandergo_cache:place:".data.length)] at hc
  have hval : "@wandergo_cache:place:".data[21]? = some ':' := by decide
  rw [hval] at hc
  exact absurd (Option.some.inj hc) (by decide)

theorem expiryKeyOf_places_all_ne_place (identifier : String) :
    expiryKeyOf "places" "all" ≠ expiryKeyOf "place" identifier := by
  intro h
  have hc := congrArg (fun s => s.data[22]?) h
  dsimp only at hc
  have hL : (expiryKeyOf "places" "all").data[22]? = some 's' := by decide
  have hid : expiryKeyOf "place" identifier = "@wandergo_expiry:place:" ++ identifier := rfl
  rw [hL, hid, String.data_append, List.getElem?_append,
    if_pos (by decide : (22:Nat) < "@wandergo_expiry:place:".data.length)] at hc
  have hval : "@wandergo_expiry:place:".data[22]? = some ':' := by decide
  rw [hval] at hc
  exact absurd (Option.some.inj hc) (by decide)

theorem getItem_cacheData_ne (now : Nat) (kind identifier : String)
    (v : StoredStr) (dur : Nat) (st : Storage) (k : String)
    (h1 : k ≠ cacheKeyOf kind identifier) (h2 : k ≠ expiryKeyOf kind identifier) :
    (cacheData now kind identifier v dur st).getItem k = st.getItem k := by
  simp only [cacheData, Storage.multiSet, List.foldl]
  rw [getItem_setItem_ne _ _ _ _ h2, getItem_setItem_ne _ _ _ _ h1]

/-- `savePlacesForOffline(places)`: caches the full list under
`("places", "all")` with a 7-day ttl, then each place individually under
`("place", place.id)` with the default ttl. -/
def savePlacesForOffline (now : Nat) (places : List Place) (st : Storage) : Storage :=
  let st1 := cacheData now "places" "all" (.placesOf places) (7 * 24 * 60 * 60 * 1000) st
  places.foldl
    (fun s p => cacheData now "place" p.id (.placeOf p) DEFAULT_CACHE_DURATION s) st1

/-- `getOfflinePlaces()`: `getCachedData("places", "all")`, decoded as a
places array (the only writer of this key stores a places array, so the shape
guard row is unreachable). -/
def getOfflinePlaces (now : Nat) (st : Storage) : Option (List Place) × Storage :=
  match getCachedData now "places" "all" st with
  | (some (.placesOf ps), st') => (some ps, st')
  | (some _, st') => (none, st')
  | (none, st') => (none, st')

/-- `getOfflinePlace(id)`: `getCachedData("place", id)`, decoded as a single
place (shape guard unreachable as above). -/
def getOfflinePlace (now : Nat) (identifier : String) (st : Storage) :
    Option Place × Storage :=
  match getCachedData now "place" identifier st with
  | (some (.placeOf p), st') => (some p, st')
  | (some _, st') => (none, st')
  | (none, st') => (none, st')

/-- The options object of `getPlacesWithOffline`. -/
structure PlaceOptions where
  city : Option String := none
  category : Option String := none
  search : Option String := none
  limit : Option Nat := none

/-- JS truthiness of an optional string (absent and `""` are falsy). -/
def strTruthy : Option String → Bool
  | none => false
  | some s => !(s == "")

/-- JS truthiness of an optional number (absent and `0` are falsy). -/
def natTruthy : Option Nat → Bool
  | none => false
  | some n => !(n == 0)

/-- Models `!options || Object.keys(options).length === 0`. -/
def isEmptyOptions : Option PlaceOptions → Bool
  | none => true
  | some o => o.city.isNone && o.category.isNone && o.search.isNone && o.limit.isNone

/-- Models `String.prototype.includes`. -/
def jsIncludes (s sub : String) : Bool :=
  decide (sub.toList <:+: s.toList)

/-- The client-side post-filters of the offline branch of
`getPlacesWithOffline`: city substring match, exact category, name or
description substring search, then `slice(0, limit)`. -/
def applyPlaceFilters (o : PlaceOptions) (cached : List Place) : List Place :=
  let places := if strTruthy o.city then
      cached.filter (fun p => jsIncludes p.city.toLower (o.city.getD "").toLower)
    else cached
  let places := if strTruthy o.category then
      places.filter (fun p => p.category == o.category.getD "")
    else places
  let places := if strTruthy o.search then
      places.filter (fun p =>
        jsIncludes p.name.toLower ((o.search.getD "").toLower)
        || (match p.description with
            | some d => jsIncludes d.toLower ((o.search.getD "").toLower)
            | none => false))
    else places
  if natTruthy o.limit then places.take (o.limit.getD 0) else places

/-- `getPlacesWithOffline(options)`: online → live fetch (`fetched` is the
oracle for `api.getPlaces`); on success cache via `savePlacesForOffline` only
when the options object is absent or empty, and return the fetched list; on
failure fall back to the cached full list if present, else rethrow.  Offline
→ the cached full list post-filtered by the options, or the
"No cached data available" error. -/
def getPlacesWithOffline (now : Nat) (isOnline : Bool)
    (fetched : Except String (List Place)) (options : Option PlaceOptions)
    (st : Storage) : Except String (List Place) × Storage :=
  if isOnline then
    match fetched with
    | .ok places =>
        if isEmptyOptions options then
          (.ok places, savePlacesForOffline now places st)
        else
          (.ok places, st)
    | .error e =>
        match getOfflinePlaces now st with
        | (some cached, st') => (.ok cached, st')
        | (none, st') => (.error e, st')
  else
    match getOfflinePlaces now st with
    | (some cached, st') =>
        (.ok (match options with
              | some o => applyPlaceFilters o cached
              | none => cached), st')
    | (none, st') =>
        (.error "No cached data available. Please connect to the internet.", st')

/-- `getPlaceWithOffline(id)`: online → live fetch (`fetched` is the oracle
for `api.getPlace(id)`); on success always cache under `("place", id)` and
return; on failure fall back to the cached place, else rethrow.  Offline →
cached place or the "Place not available offline." error. -/
def getPlaceWithOffline (now : Nat) (isOnline : Bool)
    (fetched : Except String Place) (identifier : String) (st : Storage) :
    Except String Place × Storage :=
  if isOnline then
    match fetched with
    | .ok place =>
        (.ok place, cacheData now "place" identifier (.placeOf place) DEFAULT_CACHE_DURATION st)
    | .error e =>
        match getOfflinePlace now identifier st with
        | (some cached, st') => (.ok cached, st')
        | (none, st') => (.error e, st')
  else
    match getOfflinePlace now identifier st with
    | (some cached, st') => (.ok cached, st')
    | (none, st') => (.error "Place not available offline.", st')

theorem getItem_savePlaces_fold (now : Nat) (ps : List Place) (s : Storage)
    (k : String)
    (hk : ∀ p ∈ ps, k ≠ cacheKeyOf "place" p.id ∧ k ≠ expiryKeyOf "place" p.id) :
    (ps.foldl (fun s p => cacheData now "place" p.id (.placeOf p)
        DEFAULT_CACHE_DURATION s) s).getItem k = s.getItem k := by
  induction ps generalizing s with
  | nil => rfl
  | cons p rest ih =>
      simp only [List.foldl]
      rw [ih _ (fun q hq => hk q (by simp [hq]))]
      exact getItem_cacheData_ne _ _ _ _ _ _ _ (hk p (by simp)).1 (hk p (by simp)).2

theorem getCachedData_savePlacesForOffline (now : Nat) (places : List Place)
    (st : Storage) :
    (getCachedData now "places" "all" (savePlacesForOffline now places st)).1
      = some (.placesOf places) := by
  have hck : (savePlacesForOffline now places st).getItem (cacheKeyOf "places" "all")
      = some (.placesOf places) := by
    simp only [savePlacesForOffline]
    rw [getItem_savePlaces_fold _ _ _ _ (fun p _ =>
      ⟨cacheKeyOf_places_all_ne_place p.id, cacheKeyOf_ne_expiryKeyOf_any _ _ _ _⟩)]
    exact getItem_cacheData_cacheKey _ _ _ _ _ _
  have hek : (savePlacesForOffline now places st).getItem (expiryKeyOf "places" "all")
      = some (.natOf (now + 7 * 24 * 60 * 60 * 1000)) := by
    simp only [savePlacesForOffline]
    rw [getItem_savePlaces_fold _ _ _ _ (fun p _ =>
      ⟨(cacheKeyOf_ne_expiryKeyOf_any "place" p.id "places" "all").symm,
       expiryKeyOf_places_all_ne_place p.id⟩)]
    exact getItem_cacheData_expiryKey _ _ _ _ _ _
  simp only [getCachedData, hck, hek]
  rw [if_neg (by omega)]

/-- Concrete place used by the accessor counterexample. -/
def placeW : Place := { id := "p1", name := "N1" }

/-- C10 counterexample: the claim says every online read accessor — in
particular `getPlacesWithOffline` with any options — writes a successful
fetch through to the cache; but with non-empty options (here
`{city: "Paris"}`) the code skips `savePlacesForOffline`, so after a
successful fetch the storage is unchanged and the `("places", "all")` cache
entry is still absent. -/
theorem online_fetch_options_no_writethrough_cex :
    (getPlacesWithOffline 0 true (.ok [placeW])
        (some { city := some "Paris" }) ([] : Storage)).1 = .ok [placeW]
    ∧ (getPlacesWithOffline 0 true (.ok [placeW])
        (some { city := some "Paris" }) ([] : Storage)).2 = ([] : Storage)
    ∧ (getCachedData 0 "places" "all"
        ((getPlacesWithOffline 0 true (.ok [placeW])
          (some { city := some "Paris" }) ([] : Storage)).2)).1 = none :=
  ⟨rfl, rfl, rfl⟩

/-- C10 (amended): for `getPlacesWithOffline` called while online, a
successful fetch returns the fetched list but writes it through to the cache
only when the options object is absent or empty (a subsequent cache read of
`("places", "all")` then yields exactly the fetched list); with non-empty
options the result is returned without touching storage.  A failed fetch
returns the cached full list when present and otherwise propagates the error.
`getPlaceWithOffline` always writes through on success and falls back to its
cached entry on failure. -/
theorem online_accessor_postcondition (now : Nat) (places : List Place)
    (p : Place) (e : String) (options : Option PlaceOptions)
    (identifier : String) (st : Storage) :
    getPlacesWithOffline now true (.ok places) options st
      = (.ok places,
         if isEmptyOptions options then savePlacesForOffline now places st else st)
    ∧ (getCachedData now "places" "all"
        (getPlacesWithOffline now true (.ok places) none st).2).1
        = some (.placesOf places)
    ∧ getPlacesWithOffline now true (.error e) options st
      = (match getOfflinePlaces now st with
         | (some cached, st') => (.ok cached, st')
         | (none, st') => (.error e, st'))
    ∧ getPlaceWithOffline now true (.ok p) identifier st
      = (.ok p, cacheData now "place" identifier (.placeOf p) DEFAULT_CACHE_DURATION st)
    ∧ getPlaceWithOffline now true (.error e) identifier st
      = (match getOfflinePlace now identifier st with
         | (some cached, st') => (.ok cached, st')
         | (none, st') => (.error e, st')) := by
  refine ⟨?_, ?_, ?_, rfl, ?_⟩
  · by_cases h : isEmptyOptions options
    · simp [getPlacesWithOffline, h]
    · simp [getPlacesWithOffline, h]
  · exact getCachedData_savePlacesForOffline now places st
  · rcases hg : getOfflinePlaces now st with ⟨o, st'⟩
    cases o <;> simp [getPlacesWithOffline, hg]
  · rcases hg : getOfflinePlace now identifier st with ⟨o, st'⟩
    cases o <;> simp [getPlaceWithOffline, hg]

/-- Models `x || d` for an optional numeric argument: absent and `0` are
falsy, so both fall back to the default. -/
def jsOrQ : Option ℚ → ℚ → ℚ
  | none, d => d
  | some v, d => if v = 0 then d else v

/-- Models `x || d` for an optional count argument. -/
def jsOrNat : Option Nat → Nat → Nat
  | none, d => d
  | some v, d => if v = 0 then d else v

/-- Deterministic stand-in for `Number.prototype.toFixed(2)` as used to form
the nearby cache key; only determinism in `(lat, lng)` matters to the model. -/
def toFixed2 (q : ℚ) : String := toString (Int.floor (q * 100))

/-- The nearby cache key `"nearby_" + lat.toFixed(2) + "_" + lng.toFixed(2)`. -/
def nearbyCacheKey (lat lng : ℚ) : String :=
  "nearby_" ++ toFixed2 lat ++ "_" ++ toFixed2 lng

/-- The `distance` field of a place inside the nearby pipeline (always set by
the preceding `map`; the default 0 is never read). -/
def distVal (p : Place) : ℚ := p.distance.getD 0

/-- The offline derivation of nearby places from the cached "all places"
collection: spread a `distance` field computed by the haversine function
(`hav` abstracts the floating-point trigonometry of lines 662-672), keep the
places within the radius (default 20 km), sort ascending by distance, take
the first `limit` (default 10). -/
def withDistance (hav : ℚ → ℚ → ℚ → ℚ → ℚ) (lat lng : ℚ)
    (ps : List Place) : List Place :=
  ps.map (fun p =>
    { p with distance := some (hav lat lng p.latitude p.longitude) })

/-- Filter the distance-annotated places to the radius (default 20 km), sort
ascending by distance, and take the first `limit` (default 10). -/
def nearbyFromAll (hav : ℚ → ℚ → ℚ → ℚ → ℚ) (lat lng : ℚ)
    (radiusKm : Option ℚ) (limit : Option Nat) (ps : List Place) : List Place :=
  (((withDistance hav lat lng ps).filter
      (fun p => decide (distVal p ≤ jsOrQ radiusKm 20))).mergeSort
      (fun a b => decide (distVal a ≤ distVal b))).take (jsOrNat limit 10)

/-- `getNearbyPlacesWithOffline(lat, lng, radiusKm, limit)`: online → live
fetch (oracle `fetched`), cached under the coordinate-rounded key on success,
cache fallback on failure.  Offline → exact cached nearby entry if present,
else derive from the cached "all places" collection, else reject with the
offline error.  (The `some _` shape-guard rows are unreachable: those keys
only ever hold places arrays.) -/
def getNearbyPlacesWithOffline (hav : ℚ → ℚ → ℚ → ℚ → ℚ) (now : Nat)
    (isOnline : Bool) (fetched : Except String (List Place)) (lat lng : ℚ)
    (radiusKm : Option ℚ) (limit : Option Nat) (st : Storage) :
    Except String (List Place) × Storage :=
  let cacheKey := nearbyCacheKey lat lng
  if isOnline then
    match fetched with
    | .ok places =>
        (.ok places,
         cacheData now "nearby_places" cacheKey (.placesOf places)
           DEFAULT_CACHE_DURATION st)
    | .error e =>
        match getCachedData now "nearby_places" cacheKey st with
        | (some (.placesOf ps), st') => (.ok ps, st')
        | (some _, st') => (.error e, st')
        | (none, st') => (.error e, st')
  else
    match getCachedData now "nearby_places" cacheKey st with
    | (some (.placesOf ps), st') => (.ok ps, st')
    | (some _, st') =>
        (.error "No cached nearby places available. Please connect to the internet.", st')
    | (none, st') =>
        match getOfflinePlaces now st' with
        | (some allPlaces, st'') =>
            (.ok (nearbyFromAll hav lat lng radiusKm limit allPlaces), st'')
        | (none, st'') =>
            (.error "No cached nearby places available. Please connect to the internet.", st'')


theorem nearbyFromAll_sorted (hav : ℚ → ℚ → ℚ → ℚ → ℚ) (lat lng : ℚ)
    (radiusKm : Option ℚ) (limit : Option Nat) (ps : List Place) :
    (nearbyFromAll hav lat lng radiusKm limit ps).Pairwise
      (fun a b => distVal a ≤ distVal b) := by
  have htrans : ∀ a b c : Place, decide (distVal a ≤ distVal b) = true →
      decide (distVal b ≤ distVal c) = true →
      decide (distVal a ≤ distVal c) = true := by
    intro a b c hab hbc
    simp only [decide_eq_true_eq] at hab hbc ⊢
    exact le_trans hab hbc
  have htotal : ∀ a b : Place,
      (decide (distVal a ≤ distVal b) || decide (distVal b ≤ distVal a)) = true := by
    intro a b
    simp only [Bool.or_eq_true, decide_eq_true_eq]
    exact le_total _ _
  have hsorted := List.sorted_mergeSort htrans htotal
    ((withDistance hav lat lng ps).filter
      (fun p => decide (distVal p ≤ jsOrQ radiusKm 20)))
  have htake := List.Pairwise.sublist
    (List.take_sublist (jsOrNat limit 10) _) hsorted
  exact htake.imp (fun h => by simpa using h)

theorem nearbyFromAll_within_radius (hav : ℚ → ℚ → ℚ → ℚ → ℚ) (lat lng : ℚ)
    (radiusKm : Option ℚ) (limit : Option Nat) (ps : List Place) :
    ∀ p ∈ nearbyFromAll hav lat lng radiusKm limit ps,
      distVal p ≤ jsOrQ radiusKm 20 := by
  intro p hp
  have hms : p ∈ ((withDistance hav lat lng ps).filter
      (fun p => decide (distVal p ≤ jsOrQ radiusKm 20))).mergeSort
      (fun a b => decide (distVal a ≤ distVal b)) :=
    (List.take_sublist _ _).mem hp
  have hf := (List.mergeSort_perm _ _).mem_iff.mp hms
  have := (List.mem_filter.mp hf).2
  simpa using this

theorem nearbyFromAll_length_le (hav : ℚ → ℚ → ℚ → ℚ → ℚ) (lat lng : ℚ)
    (radiusKm : Option ℚ) (limit : Option Nat) (ps : List Place) :
    (nearbyFromAll hav lat lng radiusKm limit ps).length ≤ jsOrNat limit 10 := by
  simp only [nearbyFromAll]
  rw [List.length_take]
  exact min_le_left _ _

/-- C8: offline, with no exact cached nearby entry but with a cached
"all places" collection, `getNearbyPlacesWithOffline` returns the derived
list — sorted ascending by the distance computed by the haversine function
`hav` (recorded in each returned place's `distance` field), every returned
distance at most `radiusKm` (default 20 km), and at most `limit` (default 10)
results; if the "all places" cache is also absent the call rejects with the
"not available offline" error.  (`hav` abstracts the floating-point haversine
of the source; the claimed properties hold uniformly in it.) -/
theorem nearby_offline_fallback (hav : ℚ → ℚ → ℚ → ℚ → ℚ) (now : Nat)
    (fetched : Except String (List Place)) (lat lng : ℚ)
    (radiusKm : Option ℚ) (limit : Option Nat) (st : Storage)
    (hmiss : (getCachedData now "nearby_places" (nearbyCacheKey lat lng) st).1 = none) :
    ((getOfflinePlaces now
        (getCachedData now "nearby_places" (nearbyCacheKey lat lng) st).2).1 = none →
      (getNearbyPlacesWithOffline hav now false fetched lat lng radiusKm limit st).1
        = .error "No cached nearby places available. Please connect to the internet.")
    ∧ ∀ allPlaces,
      (getOfflinePlaces now
        (getCachedData now "nearby_places" (nearbyCacheKey lat lng) st).2).1
          = some allPlaces →
      (getNearbyPlacesWithOffline hav now false fetched lat lng radiusKm limit st).1
          = .ok (nearbyFromAll hav lat lng radiusKm limit allPlaces)
        ∧ (nearbyFromAll hav lat lng radiusKm limit allPlaces).Pairwise
            (fun a b => distVal a ≤ distVal b)
        ∧ (∀ p ∈ nearbyFromAll hav lat lng radiusKm limit allPlaces,
            distVal p ≤ jsOrQ radiusKm 20)
        ∧ (nearbyFromAll hav lat lng radiusKm limit allPlaces).length
            ≤ jsOrNat limit 10 := by
  rcases hg : getCachedData now "nearby_places" (nearbyCacheKey lat lng) st with ⟨o, st'⟩
  simp only [hg] at hmiss
  subst hmiss
  constructor
  · intro hnone
    simp only [hg] at hnone
    rcases ho : getOfflinePlaces now st' with ⟨oo, st''⟩
    simp only [ho] at hnone
    subst hnone
    simp [getNearbyPlacesWithOffline, hg, ho]
  · intro allPlaces hsome
    simp only [hg] at hsome
    rcases ho : getOfflinePlaces now st' with ⟨oo, st''⟩
    simp only [ho] at hsome
    subst hsome
    refine ⟨?_, nearbyFromAll_sorted hav lat lng radiusKm limit allPlaces,
      nearbyFromAll_within_radius hav lat lng radiusKm limit allPlaces,
      nearbyFromAll_length_le hav lat lng radiusKm limit allPlaces⟩
    simp [getNearbyPlacesWithOffline, hg, ho]

/-- Concrete distance oracle for the C8 witness: distance is the place's
latitude. -/
def havW : ℚ → ℚ → ℚ → ℚ → ℚ := fun _ _ plat _ => plat

/-- Concrete place at latitude 5 for the C8 witness. -/
def placeA : Place := { id := "a", name := "A", latitude := 5, longitude := 0 }

/-- Concrete place at latitude 2 for the C8 witness. -/
def placeB : Place := { id := "b", name := "B", latitude := 2, longitude := 0 }

/-- Concrete storage for the C8 witness: an "all places" cache and no nearby
entry. -/
def st8 : Storage :=
  cacheData 0 "places" "all" (.placesOf [placeA, placeB]) 1000 []

/-- C8 witness: with a concrete two-place "all places" cache and no nearby
entry, the offline nearby call returns the derived list, sorted, within the
default radius, and within the default limit. -/
theorem nearby_offline_fallback_witness :
    (getCachedData 0 "nearby_places" (nearbyCacheKey 1 1) st8).1 = none
    ∧ ((getNearbyPlacesWithOffline havW 0 false (.ok []) 1 1 none none st8).1
        = .ok (nearbyFromAll havW 1 1 none none [placeA, placeB])
      ∧ (nearbyFromAll havW 1 1 none none [placeA, placeB]).Pairwise
          (fun a b => distVal a ≤ distVal b)
      ∧ (∀ p ∈ nearbyFromAll havW 1 1 none none [placeA, placeB],
          distVal p ≤ jsOrQ none 20)
      ∧ (nearbyFromAll havW 1 1 none none [placeA, placeB]).length
          ≤ jsOrNat none 10) := by
  have h := nearby_offline_fallback havW 0 (.ok []) 1 1 none none st8 rfl
  exact ⟨rfl, h.2 [placeA, placeB] rfl⟩
